import Mathlib

/-!
Shallow embedding of `src/ResourceGetter.py` (module `ResourceGetter`,
class `ResourceManager` and its helpers).

Modelling conventions:
* Parsed file contents (the output of a parser such as `parse_json`) are
  modelled by the inductive type `Value`: JSON-like trees of maps,
  sequences, and scalar leaves.
* Python `dict`s are modelled as insertion-ordered association lists
  (`List (String × α)`): `d[k] = v` is `dictInsert` (replace in place if
  the key exists, else append) and `d.update(d2)` is `dictUpdate`,
  matching CPython's insertion-order semantics.
* Exceptions are modelled with `Except PyErr`: `RGError` carries its
  message; descending into a non-`dict` value with segments left models
  the `AttributeError` that `data.keys()` raises on a non-dict.
* Messages built with `str.format` are assembled by concatenation; the
  single quotes the source puts around interpolated values are omitted
  from the modelled message texts.
-/

namespace RG

/-- `str.lower()` on the ASCII strings involved: lowercase each character. -/
def strToLower (s : String) : String :=
  String.mk (s.data.map Char.toLower)

/-- Python `c in s` for a single character `c`. -/
def strContainsChar (s : String) (c : Char) : Bool :=
  s.data.contains c

/-- Helper for `strSplitOnChar`: split the remaining characters at `c`,
`cur` holding the current chunk reversed. -/
def splitOnCharAux (c : Char) : List Char → List Char → List String
  | [], cur => [String.mk cur.reverse]
  | d :: rest, cur =>
    if d = c then String.mk cur.reverse :: splitOnCharAux c rest []
    else splitOnCharAux c rest (d :: cur)

/-- Python `s.split(c)` for a single-character separator: `"a.b" ↦
["a", "b"]`, `"" ↦ [""]`, `"a." ↦ ["a", ""]`. -/
def strSplitOnChar (s : String) (c : Char) : List String :=
  splitOnCharAux c s.data []

/-- Helper for `reindent`: insert `ind` after every newline character. -/
def reindentAux (ind : List Char) : List Char → List Char
  | [] => []
  | d :: rest =>
    if d = '\n' then d :: (ind ++ reindentAux ind rest)
    else d :: reindentAux ind rest

/-- Python `s.replace("\n", "\n    ")` as `Incident.__call__` performs it. -/
def reindent (s : String) : String :=
  String.mk (reindentAux "    ".data s.data)

/-- Nested structure produced by a file parser (maps / sequences / leaves). -/
inductive Value where
  | vInt : Int → Value
  | vStr : String → Value
  | vBool : Bool → Value
  | dict : List (String × Value) → Value
  | list : List Value → Value

/-- Python `d[k] = v` on an insertion-ordered dict: replace the value in
place when the key is present, otherwise append the new binding. -/
def dictInsert (d : List (String × α)) (k : String) (v : α) :
    List (String × α) :=
  if d.any (fun p => p.1 == k) then
    d.map (fun p => if p.1 == k then (k, v) else p)
  else
    d ++ [(k, v)]

/-- Python `d.update(d2)`: fold `dictInsert` over the bindings of `d2`. -/
def dictUpdate (d d2 : List (String × α)) : List (String × α) :=
  d2.foldl (fun acc p => dictInsert acc p.1 p.2) d

/-- Python `d.get(k, None)` / `k in d` on an association list. -/
def lookupD (d : List (String × α)) (k : String) : Option α :=
  (d.find? (fun p => p.1 == k)).map (fun p => p.2)

mutual

/-- `d_flatten(data, s_path, s_pre)` from `ResourceManager.__init__`
(src/ResourceGetter.py lines 245-273): flatten a nested structure into
dot-joined keys mapped to `(value, s_path)`.  Only `dict` values recurse
from inside a dict; any other value (a `list` included) is stored as a
leaf.  A `list` node recurses on its elements with `prefix + index + "."`. -/
def d_flatten (data : Value) (s_path : String) (s_pre : String) :
    List (String × (Value × String)) :=
  match data with
  | .dict items => flattenItems items s_path s_pre []
  | .list items => flattenElems items s_path s_pre 0 []
  | _ => []

/-- The `for s_key, value in data.items()` loop of `d_flatten`, threading
the accumulated `flattened` dict. -/
def flattenItems (items : List (String × Value)) (s_path s_pre : String)
    (acc : List (String × (Value × String))) :
    List (String × (Value × String)) :=
  match items with
  | [] => acc
  | (s_key, value) :: rest =>
    let s_new_key := if s_pre = "" then s_key else s_pre ++ s_key
    match value with
    | .dict ds =>
      flattenItems rest s_path s_pre
        (dictUpdate acc (d_flatten (.dict ds) s_path (s_new_key ++ ".")))
    | v => flattenItems rest s_path s_pre (dictInsert acc s_new_key (v, s_path))

/-- The `for i_index, item in enumerate(data)` loop of `d_flatten`. -/
def flattenElems (items : List Value) (s_path s_pre : String) (i : Nat)
    (acc : List (String × (Value × String))) :
    List (String × (Value × String)) :=
  match items with
  | [] => acc
  | item :: rest =>
    flattenElems rest s_path s_pre (i + 1)
      (dictUpdate acc (d_flatten item s_path (s_pre ++ toString i ++ ".")))

end

/-- Python exceptions that the modelled code can raise: `RGError` with its
message, and the `AttributeError` from calling `.keys()` on a non-dict. -/
inductive PyErr where
  | rgError : String → PyErr
  | attrError : String → PyErr
deriving DecidableEq

/-- Incident severity levels `MESSAGE` (0), `WARNING` (1), `ERROR` (2). -/
inductive Severity where
  | msg
  | warn
  | err
deriving DecidableEq

/-- `Incident.__call__` (src/ResourceGetter.py lines 103-127) with the
message already `format`-ted: at `ERROR` severity it raises
`RGError("{name}: {message}")` (newlines re-indented); at `WARNING` or
`MESSAGE` it emits a diagnostic and returns normally. -/
def incidentCall (s_name : String) (sev : Severity) (s_message : String) :
    Except PyErr Unit :=
  match sev with
  | .err => .error (.rgError (s_name ++ ": " ++ reindent s_message))
  | .warn => .ok ()
  | .msg => .ok ()

/-- A discovered source file: its path string and the nested structure its
parser would produce.  (`_get_all_source_files` pairs each globbed path
with the substring after the last `.`; the parse result is carried here so
that `x_parser(path)` is pure.) -/
structure SourceFile where
  path : String
  data : Value

/-- `str(path).rpartition(".")[2]`: the substring after the last `.`, or
the whole string when there is no `.` (src/ResourceGetter.py lines 276, 327). -/
def extOf (path : String) : String :=
  (strSplitOnChar path (Char.ofNat 46)).getLastD ""

/-- `ResourceManager.register_parser` (src/ResourceGetter.py lines 441-452):
`_D_PARSERS[s_format] = x_parser` — the format string is stored verbatim,
with no lowercasing. -/
def registerParser (d : List (String × α)) (s_format : String) (xParser : α) :
    List (String × α) :=
  dictInsert d s_format xParser

/-- `_D_PARSERS.get(s_extension.lower(), None)`
(src/ResourceGetter.py lines 278, 361): lookup lowercases the extension. -/
def parserFor (d : List (String × α)) (s_extension : String) : Option α :=
  lookupD d (strToLower s_extension)

/-- Whether the registry (abstracted to its key list) has a parser for the
extension: `_D_PARSERS.get(s_extension.lower(), None) is not None`. -/
def hasParser (parserKeys : List String) (s_extension : String) : Bool :=
  parserKeys.contains (strToLower s_extension)

/-- The `while sa_parts and (sa_parts[0] in data.keys())` loop of
`_get_resource` (src/ResourceGetter.py lines 367-369): pop leading
segments while each is a key of the current dict, descending.  Returns the
remaining segments and the value reached; calling `.keys()` on a non-dict
with segments remaining raises `AttributeError`. -/
def descend (sa_parts : List String) (data : Value) :
    Except PyErr (List String × Value) :=
  match sa_parts with
  | [] => .ok ([], data)
  | p :: rest =>
    match data with
    | .dict items =>
      match lookupD items p with
      | some v => descend rest v
      | none => .ok (p :: rest, data)
    | _ => .error (.attrError "keys")

/-- The `for path, s_extension in self._get_all_source_files()` loop of
`_get_resource` (src/ResourceGetter.py lines 360-375).  `sa_parts` is the
SAME list object across iterations in the source (segments popped while
probing one file stay popped for the next), so the remaining segments are
threaded here.  A file with no registered parser only warns and is
skipped.  Returns `some (data, path)` on a full match, `none` when the
loop exhausts the files. -/
def scanLoop (parserKeys : List String) (files : List SourceFile)
    (sa_parts : List String) : Except PyErr (Option (Value × String)) :=
  match files with
  | [] => .ok none
  | f :: rest =>
    if hasParser parserKeys (extOf f.path) then
      match descend sa_parts f.data with
      | .error e => .error e
      | .ok ([], data) => .ok (some (data, f.path))
      | .ok (p :: ps, _) => scanLoop parserKeys rest (p :: ps)
    else
      scanLoop parserKeys rest sa_parts

/-- Per-instance state of a `ResourceManager`: the cache `_D_DATA`, the
override table `_D_OVERRIDES`, and the transformer list
`_XAA_TRANSFORMERS`, in registration order. -/
structure Manager where
  d_data : List (String × (Value × String))
  d_overrides : List (String × (Value × String))
  transformers : List ((Value → Bool) × (Value → Value))

/-- `ResourceManager._get_resource` (src/ResourceGetter.py lines 329-377):
overrides first; then the cache unless `b_reload`; reject wildcards with
`RGError`; otherwise split the key on `.` and scan the discovered files,
caching and returning a full match, or raising the not-found `RGError`.
Returns the resolved `(value, source)` pair and the updated manager state. -/
def getResource (parserKeys : List String) (files : List SourceFile)
    (m : Manager) (s_resource : String) (b_reload : Bool) :
    Except PyErr ((Value × String) × Manager) :=
  match lookupD m.d_overrides s_resource with
  | some pr => .ok (pr, m)
  | none =>
    match b_reload, lookupD m.d_data s_resource with
    | false, some pr => .ok (pr, m)
    | _, _ =>
      if strContainsChar s_resource (Char.ofNat 42) then
        .error (.rgError "No wildcard search allowed yet!")
      else
        match scanLoop parserKeys files (strSplitOnChar s_resource (Char.ofNat 46)) with
        | .error e => .error e
        | .ok (some (data, path)) =>
          .ok ((data, path),
               { m with d_data := dictInsert m.d_data s_resource (data, path) })
        | .ok none => .error (.rgError ("Could not find " ++ s_resource))

/-- The `for x_check, x_transform in self._XAA_TRANSFORMERS[::-1]` loop of
`get` (src/ResourceGetter.py lines 395-398), already reversed: the first
accepting predicate has its transform applied and the loop breaks. -/
def applyTransformersLoop :
    List ((Value → Bool) × (Value → Value)) → Value → Value
  | [], v => v
  | (xc, xt) :: rest, v => if xc v then xt v else applyTransformersLoop rest v

/-- Transformer application as `get` performs it: iterate the registered
list in reverse. -/
def applyTransformers (tfs : List ((Value → Bool) × (Value → Value)))
    (v : Value) : Value :=
  applyTransformersLoop tfs.reverse v

/-- The dynamically subclassed return value of `get`: an `RG<type>`
instance carrying the underlying value (the `expand` capability adds no
state). -/
structure Wrapped where
  value : Value

/-- `ResourceManager.get` (src/ResourceGetter.py lines 379-405): resolve
via `_get_resource`, apply the first matching transformer
(most-recently-registered first), and wrap the result in a fresh
`RG`-subclassed instance. -/
def get (parserKeys : List String) (files : List SourceFile) (m : Manager)
    (s_resource : String) (b_reload : Bool) :
    Except PyErr (Wrapped × Manager) :=
  match getResource parserKeys files m s_resource b_reload with
  | .error e => .error e
  | .ok ((value, _), m2) =>
    .ok (⟨applyTransformers m2.transformers value⟩, m2)

/-- `ResourceManager.info` (src/ResourceGetter.py lines 407-417): resolve
like `get` (default `b_reload=False`) but return only the source label. -/
def info (parserKeys : List String) (files : List SourceFile) (m : Manager)
    (s_resource : String) : Except PyErr (String × Manager) :=
  match getResource parserKeys files m s_resource false with
  | .error e => .error e
  | .ok ((_, src), m2) => .ok (src, m2)

/-- `ResourceManager.override` (src/ResourceGetter.py lines 419-429):
`self._D_OVERRIDES[s_resource] = (value, "override")`. -/
def setOverride (m : Manager) (s_resource : String) (value : Value) : Manager :=
  { m with d_overrides := dictInsert m.d_overrides s_resource (value, "override") }

/-- `ResourceManager.register_transformer` (src/ResourceGetter.py
lines 454-455): append the `(check, transform)` pair. -/
def registerTransformer (m : Manager) (xc : Value → Bool)
    (xt : Value → Value) : Manager :=
  { m with transformers := m.transformers ++ [(xc, xt)] }

/-- The eager-load loop of `__init__` (src/ResourceGetter.py lines
275-284) as a recursion over the still-unprocessed files (already in
`[::-1]` order): a file with no parser triggers
`INCIDENT_NO_EXTENSION(...)` (name `UnknownExtension`, default severity
`ERROR`, hence a raise) before the `continue`; otherwise its flattened
data is merged into the accumulated `_D_DATA` via `update`. -/
def initLoadGo (parserKeys : List String) (sevNoExt : Severity) :
    List SourceFile → List (String × (Value × String)) →
    Except PyErr (List (String × (Value × String)))
  | [], acc => .ok acc
  | f :: rest, acc =>
    let s_extension := extOf f.path
    if hasParser parserKeys s_extension then
      initLoadGo parserKeys sevNoExt rest
        (dictUpdate acc (d_flatten f.data f.path ""))
    else
      match incidentCall "UnknownExtension" sevNoExt
          ("No parser found for: " ++ s_extension ++ " (" ++ f.path ++ ")") with
      | .error e => .error e
      | .ok _ => initLoadGo parserKeys sevNoExt rest acc

/-- Eager load over `self._get_all_source_files()[::-1]` starting from the
empty `_D_DATA`. -/
def initLoad (parserKeys : List String) (files : List SourceFile)
    (sevNoExt : Severity) : Except PyErr (List (String × (Value × String))) :=
  initLoadGo parserKeys sevNoExt files.reverse []

/-- `ResourceManager.__init__` (src/ResourceGetter.py lines 199-284):
a `*` in the category triggers `INCIDENT_WILDCARD` (default severity
`MESSAGE`, hence only a printed notice); then the instance state is set
up and, when `b_load`, the eager load runs. -/
def initManager (s_category : String) (sevWildcard : Severity)
    (parserKeys : List String) (files : List SourceFile) (b_load : Bool)
    (sevNoExt : Severity) : Except PyErr Manager :=
  match (if strContainsChar s_category (Char.ofNat 42) then
           incidentCall "Wildcard" sevWildcard
             "Using * in category can cause problems"
         else .ok ()) with
  | .error e => .error e
  | .ok _ =>
    if b_load then
      match initLoad parserKeys files sevNoExt with
      | .error e => .error e
      | .ok d => .ok ⟨d, [], []⟩
    else
      .ok ⟨[], [], []⟩

/-- The eager-load result when every parserless file is merely skipped:
fold the flattened data of the parseable files, in `[::-1]` order, into an
initially empty dict.  This is the "skip and continue" semantics the
per-file `continue` implements once `INCIDENT_NO_EXTENSION` no longer
raises. -/
def eagerLoadSkip (parserKeys : List String) (files : List SourceFile) :
    List (String × (Value × String)) :=
  (files.reverse.filter (fun f => hasParser parserKeys (extOf f.path))).foldl
    (fun acc f => dictUpdate acc (d_flatten f.data f.path "")) []

/-- A scalar (non-dict, non-list) value: terminates `d_flatten` recursion. -/
def isLeaf : Value → Bool
  | .dict _ => false
  | .list _ => false
  | _ => true

/-! Helper lemmas. -/

theorem lookupD_map_replace (d : List (String × α)) (k : String) (v : α)
    (h : d.any (fun p => p.1 == k) = true) :
    lookupD (d.map (fun p => if p.1 == k then (k, v) else p)) k = some v := by
  induction d with
  | nil => simp at h
  | cons p rest ih =>
    by_cases hp : p.1 = k
    · simp [lookupD, List.find?, hp]
    · have hp2 : (p.1 == k) = false := beq_eq_false_iff_ne.mpr hp
      simp only [List.any_cons, hp2, Bool.false_or] at h
      simp only [List.map_cons, hp2, Bool.false_eq_true, if_false]
      simp only [lookupD, List.find?, hp2] at ih ⊢
      exact ih h

theorem lookupD_append_right (d : List (String × α)) (d2 : List (String × α))
    (k : String) (h : d.any (fun p => p.1 == k) = false) :
    lookupD (d ++ d2) k = lookupD d2 k := by
  induction d with
  | nil => rfl
  | cons p rest ih =>
    simp only [List.any_cons, Bool.or_eq_false_iff] at h
    simp only [List.cons_append, lookupD, List.find?, h.1] at ih ⊢
    exact ih h.2

/-- `d[k] = v` makes `k` map to `v`. -/
theorem lookupD_dictInsert_self (d : List (String × α)) (k : String) (v : α) :
    lookupD (dictInsert d k v) k = some v := by
  unfold dictInsert
  by_cases h : d.any (fun p => p.1 == k) = true
  · rw [if_pos h]
    exact lookupD_map_replace d k v h
  · rw [if_neg h]
    have h2 : d.any (fun p => p.1 == k) = false := by
      rwa [Bool.not_eq_true] at h
    rw [lookupD_append_right d _ k h2]
    simp [lookupD, List.find?]

/-- The transformer loop leaves the value unchanged when no predicate
accepts it. -/
theorem applyTransformersLoop_none (l : List ((Value → Bool) × (Value → Value)))
    (v : Value) (h : ∀ x ∈ l, x.1 v = false) :
    applyTransformersLoop l v = v := by
  induction l with
  | nil => rfl
  | cons x rest ih =>
    have hx := h x (List.mem_cons_self x rest)
    simp only [applyTransformersLoop, hx, if_neg, Bool.false_eq_true,
      not_false_eq_true]
    exact ih (fun y hy => h y (List.mem_cons_of_mem x hy))

/-- Flattening a scalar leaf yields nothing. -/
theorem d_flatten_leaf (v : Value) (hv : isLeaf v = true)
    (s_path s_pre : String) : d_flatten v s_path s_pre = [] := by
  cases v <;> first | rfl | simp [isLeaf] at hv

/-- The sequence loop of `d_flatten` drops scalar elements. -/
theorem flattenElems_leaves (vs : List Value) (s_path s_pre : String)
    (i : Nat) (acc : List (String × (Value × String)))
    (h : ∀ v ∈ vs, isLeaf v = true) :
    flattenElems vs s_path s_pre i acc = acc := by
  induction vs generalizing i acc with
  | nil => rfl
  | cons v rest ih =>
    have hv := h v (List.mem_cons_self v rest)
    show flattenElems (v :: rest) s_path s_pre i acc = acc
    rw [flattenElems, d_flatten_leaf v hv]
    exact ih (i + 1) _ (fun y hy => h y (List.mem_cons_of_mem v hy))

/-- `_get_resource` only ever touches the state by inserting the raw
resolved `(value, source)` pair into `_D_DATA` under the requested key;
overrides and transformers are untouched. -/
theorem getResource_state (pk : List String) (files : List SourceFile)
    (m : Manager) (key : String) (r : Bool) (pr : Value × String)
    (m2 : Manager) (h : getResource pk files m key r = .ok (pr, m2)) :
    m2.d_overrides = m.d_overrides ∧ m2.transformers = m.transformers ∧
    (m2.d_data = m.d_data ∨ m2.d_data = dictInsert m.d_data key pr) := by
  unfold getResource at h
  split at h
  · simp only [Except.ok.injEq, Prod.mk.injEq] at h
    obtain ⟨-, h2⟩ := h
    subst h2
    exact ⟨rfl, rfl, Or.inl rfl⟩
  · split at h
    · simp only [Except.ok.injEq, Prod.mk.injEq] at h
      obtain ⟨-, h2⟩ := h
      subst h2
      exact ⟨rfl, rfl, Or.inl rfl⟩
    · split at h
      · exact absurd h (by simp)
      · split at h
        · exact absurd h (by simp)
        · rename_i data path heq
          simp only [Except.ok.injEq, Prod.mk.injEq] at h
          obtain ⟨h1, h2⟩ := h
          subst h2
          subst h1
          exact ⟨rfl, rfl, Or.inr rfl⟩
        · exact absurd h (by simp)

/-- With the no-parser incident downgraded to `WARNING`, the eager-load
loop skips parserless files and folds the flattened data of the rest. -/
theorem initLoadGo_warn (pk : List String) (l : List SourceFile)
    (acc : List (String × (Value × String))) :
    initLoadGo pk .warn l acc
      = .ok ((l.filter (fun f => hasParser pk (extOf f.path))).foldl
          (fun a f => dictUpdate a (d_flatten f.data f.path "")) acc) := by
  induction l generalizing acc with
  | nil => rfl
  | cons f rest ih =>
    by_cases hf : hasParser pk (extOf f.path) = true
    · simp only [initLoadGo, hf, if_true, List.filter_cons, List.foldl_cons]
      exact ih _
    · have hf2 : hasParser pk (extOf f.path) = false := by
        rwa [Bool.not_eq_true] at hf
      simp only [initLoadGo, hf2, Bool.false_eq_true, if_false, incidentCall,
        List.filter_cons]
      exact ih acc

/-- With the default `ERROR` severity, the eager-load loop raises
`RGError` as soon as it reaches a file with no registered parser. -/
theorem initLoadGo_err_aborts (pk : List String) (l : List SourceFile)
    (acc : List (String × (Value × String)))
    (hbad : ∃ f ∈ l, hasParser pk (extOf f.path) = false) :
    ∃ s, initLoadGo pk .err l acc = .error (.rgError s) := by
  induction l generalizing acc with
  | nil => simp at hbad
  | cons f rest ih =>
    by_cases hf : hasParser pk (extOf f.path) = true
    · obtain ⟨g, hg, hgbad⟩ := hbad
      rcases List.mem_cons.mp hg with hgf | hg2
      · rw [hgf] at hgbad
        rw [hgbad] at hf
        exact absurd hf (by simp)
      · simp only [initLoadGo, hf, if_true]
        exact ih _ ⟨g, hg2, hgbad⟩
    · have hf2 : hasParser pk (extOf f.path) = false := by
        rwa [Bool.not_eq_true] at hf
      refine ⟨"UnknownExtension: " ++ reindent ("No parser found for: "
        ++ extOf f.path ++ " (" ++ f.path ++ ")"), ?_⟩
      simp [initLoadGo, hf2, incidentCall]

/-- When every discovered file has a registered parser, the eager-load
loop completes at any severity. -/
theorem initLoadGo_all_ok (pk : List String) (sev : Severity)
    (l : List SourceFile) (acc : List (String × (Value × String)))
    (h : ∀ f ∈ l, hasParser pk (extOf f.path) = true) :
    ∃ d, initLoadGo pk sev l acc = .ok d := by
  induction l generalizing acc with
  | nil => exact ⟨acc, rfl⟩
  | cons f rest ih =>
    have hf := h f (List.mem_cons_self f rest)
    simp only [initLoadGo, hf, if_true]
    exact ih _ (fun g hg => h g (List.mem_cons_of_mem f hg))

/-- An override hit returns the stored pair at once, with the state
untouched (src/ResourceGetter.py lines 350-351). -/
theorem getResource_override_hit (pk : List String) (files : List SourceFile)
    (m : Manager) (key : String) (r : Bool) (pr : Value × String)
    (h : lookupD m.d_overrides key = some pr) :
    getResource pk files m key r = .ok (pr, m) := by
  unfold getResource
  rw [h]

/-! Concrete fixtures shared by the witnesses below. -/

/-- A manager with empty cache, overrides, and transformer list. -/
def emptyManager : Manager := ⟨[], [], []⟩

/-- A parseable discovered file. -/
def fileGood : SourceFile := ⟨"d/CONF.json", .dict [("k", .vInt 1)]⟩

/-- A discovered file whose extension has no registered parser. -/
def fileBad : SourceFile := ⟨"d/CONF.txt", .dict [("z", .vInt 9)]⟩

/-- A manager holding one override entry for key `K`. -/
def mFix : Manager := ⟨[], [("K", (.vStr "s", "override"))], []⟩

/-- A transformer predicate accepting exactly string values. -/
def isStrFn : Value → Bool := fun v =>
  match v with
  | .vStr _ => true
  | _ => false

/-- A transform collapsing any value to the integer 0. -/
def toZeroFn : Value → Value := fun _ => .vInt 0

/-! Claim theorems. -/

/-- C1: evaluation of the code at the failing input.  The key `a.b` is
looked up against two discovered files; the first, `{"a": {"x": 1}}`,
matches the segment `a` only, and because `_get_resource` pops matched
segments from the one shared `sa_parts` list, the second file
`{"a": {"b": 2}}` is probed with just `["b"]` and the lookup raises the
not-found `RGError` — even though the second file fully resolves the
original segment list `["a", "b"]` (second conjunct), so the claimed
retry-from-the-first-segment behaviour would have returned 2. -/
theorem C1_partial_match_consumes_segments :
    getResource ["json"]
      [⟨"d1/CONF.json", .dict [("a", .dict [("x", .vInt 1)])]⟩,
       ⟨"d2/CONF.json", .dict [("a", .dict [("b", .vInt 2)])]⟩]
      emptyManager "a.b" false = .error (.rgError "Could not find a.b")
    ∧ descend ["a", "b"] (.dict [("a", .dict [("b", .vInt 2)])])
        = .ok ([], .vInt 2) :=
  ⟨rfl, rfl⟩

/-- C4: evaluation of the code at the failing input.  `register_parser`
stores the format string verbatim (`_D_PARSERS[s_format] = x_parser`, no
lowercasing), while dispatch looks up the lowercased extension; a parser
registered as `JSON` is therefore never found — neither for extension
`JSON` nor `json` — contradicting the claim (and the function's own
docstring, which calls the format case-insensitive).  Only an
all-lowercase registration is reachable (last two conjuncts). -/
theorem C4_register_verbatim_lookup_lowercased :
    registerParser ([] : List (String × Nat)) "JSON" 7 = [("JSON", 7)]
    ∧ parserFor (registerParser ([] : List (String × Nat)) "JSON" 7) "JSON" = none
    ∧ parserFor (registerParser ([] : List (String × Nat)) "JSON" 7) "json" = none
    ∧ hasParser ["JSON"] "json" = false
    ∧ parserFor (registerParser ([] : List (String × Nat)) "json" 7) "JSON" = some 7
    ∧ hasParser ["json"] "JSON" = true :=
  ⟨rfl, rfl, rfl, rfl, rfl, rfl⟩

/-- C6: flattening `{"a": {"b": 1, "c": {"d": 2}}}` with any source label
`src` yields exactly the two entries `{"a.b": (1, src), "a.c.d": (2, src)}`,
in that order, and nothing else. -/
theorem C6_flatten_nested_map (src : String) :
    d_flatten
      (.dict [("a", .dict [("b", .vInt 1), ("c", .dict [("d", .vInt 2)])])])
      src ""
      = [("a.b", (.vInt 1, src)), ("a.c.d", (.vInt 2, src))] :=
  rfl

/-- C3 counterexample: flattening `{"a": [10, 20]}` does NOT record one
entry per element.  It produces the single entry `"a" ↦ ([10, 20], src)`
— the whole sequence is stored as a leaf — and no key of the shape
`a.0.`, `a.0`, or `a.1.` exists in the result. -/
theorem C3_list_in_dict_is_a_leaf :
    d_flatten (.dict [("a", .list [.vInt 10, .vInt 20])]) "src" ""
      = [("a", (.list [.vInt 10, .vInt 20], "src"))]
    ∧ (d_flatten (.dict [("a", .list [.vInt 10, .vInt 20])]) "src" "").length = 1
    ∧ lookupD (d_flatten (.dict [("a", .list [.vInt 10, .vInt 20])]) "src" "")
        "a.0." = none
    ∧ lookupD (d_flatten (.dict [("a", .list [.vInt 10, .vInt 20])]) "src" "")
        "a.0" = none
    ∧ lookupD (d_flatten (.dict [("a", .list [.vInt 10, .vInt 20])]) "src" "")
        "a.1." = none :=
  ⟨rfl, rfl, rfl, rfl, rfl⟩

/-- C3 amended: a sequence value sitting inside a map is recorded as a
single non-collection-style leaf — the parent key maps to the whole
sequence paired with the source label, with no index segments.  Numeric
index segments (scheme `prefix ++ index ++ "."`) arise only when
flattening is applied to a sequence node itself, and the non-collection
elements of such a sequence are then dropped, not recorded. -/
theorem C3_sequence_flattening_amended (k : String) (vs : List Value)
    (src : String) :
    d_flatten (.dict [(k, .list vs)]) src "" = [(k, (.list vs, src))]
    ∧ ((∀ v ∈ vs, isLeaf v = true) → d_flatten (.list vs) src "" = []) := by
  constructor
  · rfl
  · intro h
    show flattenElems vs src "" 0 [] = []
    exact flattenElems_leaves vs src "" 0 [] h

/-- C3 amended, witness at `{"a": [10, 20]}`: the hypothesis that all
elements are scalar leaves holds and the conclusions follow by applying
the amended theorem. -/
theorem C3_sequence_flattening_amended_witness :
    d_flatten (.dict [("a", .list [.vInt 10, .vInt 20])]) "src" ""
      = [("a", (.list [.vInt 10, .vInt 20], "src"))]
    ∧ d_flatten (.list [.vInt 10, .vInt 20]) "src" "" = [] :=
  ⟨(C3_sequence_flattening_amended "a" [.vInt 10, .vInt 20] "src").1,
   (C3_sequence_flattening_amended "a" [.vInt 10, .vInt 20] "src").2
     (by decide)⟩

/-- C5: any key present in the override table resolves to the stored
override pair — for either value of the reload flag and regardless of the
cache, the files, or the parser registry — with the state untouched, and
`info` returns the stored label; the label `override()` stores is the
literal string `override` (last conjunct). -/
theorem C5_override_precedence (pk : List String) (files : List SourceFile)
    (m : Manager) (key : String) (v : Value) (lbl : String) (r : Bool) :
    (lookupD m.d_overrides key = some (v, lbl) →
      getResource pk files m key r = .ok ((v, lbl), m)
      ∧ info pk files m key = .ok (lbl, m))
    ∧ lookupD (setOverride m key v).d_overrides key = some (v, "override") := by
  constructor
  · intro h
    refine ⟨getResource_override_hit pk files m key r (v, lbl) h, ?_⟩
    unfold info
    rw [getResource_override_hit pk files m key false (v, lbl) h]
  · exact lookupD_dictInsert_self _ _ _

/-- C5 witness at a manager whose override table maps `K` to
`("s", "override")`. -/
theorem C5_override_precedence_witness :
    (getResource [] [] mFix "K" true = .ok ((.vStr "s", "override"), mFix)
      ∧ info [] [] mFix "K" = .ok ("override", mFix))
    ∧ lookupD (setOverride mFix "K" (.vStr "s")).d_overrides "K"
        = some (.vStr "s", "override") :=
  ⟨(C5_override_precedence [] [] mFix "K" (.vStr "s") "override" true).1 rfl,
   (C5_override_precedence [] [] mFix "K" (.vStr "s") "override" true).2⟩

/-- C9: evaluation of the code at the failing input.  The key `a.b` has
no override, no cache entry, and no wildcard, and NO discovered file
fully resolves all of its segments: descending with the full segment
list `["a", "b"]` leaves the remnant `["b"]` in `{"a": {"x": 1}}` and
the remnant `["a", "b"]` in `{"b": 99}` (first two conjuncts).  The
claim therefore requires the distinguished not-found `RGError` naming
`a.b` — but because the scan threads the segments consumed in the first
file into the probe of the second, `_get_resource` instead matches the
leftover `["b"]` against the second file's top level and returns 99 with
no error at all, also caching it under `a.b` (third conjunct). -/
theorem C9_no_full_match_returns_wrong_value :
    descend ["a", "b"] (.dict [("a", .dict [("x", .vInt 1)])])
      = .ok (["b"], .dict [("x", .vInt 1)])
    ∧ descend ["a", "b"] (.dict [("b", .vInt 99)])
      = .ok (["a", "b"], .dict [("b", .vInt 99)])
    ∧ getResource ["json"]
        [⟨"d1/CONF.json", .dict [("a", .dict [("x", .vInt 1)])]⟩,
         ⟨"d2/CONF.json", .dict [("b", .vInt 99)]⟩]
        emptyManager "a.b" false
        = .ok ((.vInt 99, "d2/CONF.json"),
            ⟨[("a.b", (.vInt 99, "d2/CONF.json"))], [], []⟩) :=
  ⟨rfl, rfl, rfl⟩

/-- C2 counterexample: eager-load construction over a parseable json file
followed by a file with unregistered extension `txt`, with
`INCIDENT_NO_EXTENSION` at its default `ERROR` severity, raises `RGError`
out of the constructor — construction does not complete with the json
file's data (the reversed iteration reaches the `txt` file first, and the
raise propagates). -/
theorem C2_missing_parser_aborts_construction :
    initManager "CONF" .msg ["json"] [fileGood, fileBad] true .err
      = .error (.rgError
          "UnknownExtension: No parser found for: txt (d/CONF.txt)") :=
  rfl

/-- C2 amended: a missing parser during eager load is fatal by default
and aborts the ENTIRE construction — the `RGError` raised by
`INCIDENT_NO_EXTENSION` propagates out of `__init__` before the
`continue`, so no remaining file is processed; only when the incident
severity is downgraded below `ERROR` does the manager skip the offending
file and complete construction with the data of the remaining files. -/
theorem C2_missing_parser_eager_load (s_cat : String) (pk : List String)
    (files : List SourceFile) :
    ((∃ f ∈ files, hasParser pk (extOf f.path) = false) →
        ∃ s, initManager s_cat .msg pk files true .err
          = .error (.rgError s))
    ∧ initManager s_cat .msg pk files true .warn
        = .ok ⟨eagerLoadSkip pk files, [], []⟩ := by
  have hwild : (if strContainsChar s_cat (Char.ofNat 42) = true then
      incidentCall "Wildcard" .msg "Using * in category can cause problems"
      else Except.ok ()) = .ok () := by
    split <;> rfl
  constructor
  · intro hbad
    obtain ⟨f, hf, hfb⟩ := hbad
    obtain ⟨s, hs⟩ := initLoadGo_err_aborts pk files.reverse []
      ⟨f, List.mem_reverse.mpr hf, hfb⟩
    refine ⟨s, ?_⟩
    unfold initManager initLoad
    rw [hwild, hs]
    rfl
  · unfold initManager initLoad
    rw [hwild, initLoadGo_warn]
    rfl

/-- C2 amended, witness at one json file and one txt file with only a
json parser registered. -/
theorem C2_missing_parser_eager_load_witness :
    (∃ s, initManager "CONF" .msg ["json"] [fileGood, fileBad] true .err
        = .error (.rgError s))
    ∧ initManager "CONF" .msg ["json"] [fileGood, fileBad] true .warn
        = .ok ⟨eagerLoadSkip ["json"] [fileGood, fileBad], [], []⟩ :=
  ⟨(C2_missing_parser_eager_load "CONF" ["json"] [fileGood, fileBad]).1
      ⟨fileBad, List.mem_cons_of_mem _ (List.mem_cons_self _ _), rfl⟩,
   (C2_missing_parser_eager_load "CONF" ["json"] [fileGood, fileBad]).2⟩

/-- C7: registering a transformer appends it, and application walks the
list reversed, so the most recently registered pair is tested first and,
when its predicate accepts, its transform alone is applied (first
conjunct); when no predicate accepts the value it is returned unchanged
(second conjunct); and every `get` call applies exactly this selection to
the freshly resolved value (third conjunct). -/
theorem C7_transformer_application (m : Manager) (xc : Value → Bool)
    (xt : Value → Value) (v : Value) (pk : List String)
    (files : List SourceFile) (key : String) (r : Bool) :
    applyTransformers (registerTransformer m xc xt).transformers v
      = (if xc v then xt v else applyTransformers m.transformers v)
    ∧ ((∀ x ∈ m.transformers, x.1 v = false) →
        applyTransformers m.transformers v = v)
    ∧ (∀ (val : Value) (src : String) (m2 : Manager),
        getResource pk files m key r = .ok ((val, src), m2) →
        get pk files m key r
          = .ok (⟨applyTransformers m.transformers val⟩, m2)) := by
  refine ⟨?_, ?_, ?_⟩
  · show applyTransformersLoop (m.transformers ++ [(xc, xt)]).reverse v = _
    rw [List.reverse_append]
    rfl
  · intro h
    exact applyTransformersLoop_none _ v
      (fun x hx => h x (List.mem_reverse.mp hx))
  · intro val src m2 hg
    have hst := getResource_state pk files m key r (val, src) m2 hg
    unfold get
    rw [hg, ← hst.2.1]

/-- C7 witness: on the override-backed manager `mFix` (no registered
transformers), with a string predicate and a constant transform. -/
theorem C7_transformer_application_witness :
    applyTransformers (registerTransformer mFix isStrFn toZeroFn).transformers
        (.vStr "s")
      = (if isStrFn (.vStr "s") then toZeroFn (.vStr "s")
         else applyTransformers mFix.transformers (.vStr "s"))
    ∧ applyTransformers mFix.transformers (.vStr "s") = .vStr "s"
    ∧ get [] [] mFix "K" false
        = .ok (⟨applyTransformers mFix.transformers (.vStr "s")⟩, mFix) :=
  ⟨(C7_transformer_application mFix isStrFn toZeroFn (.vStr "s")
      [] [] "K" false).1,
   (C7_transformer_application mFix isStrFn toZeroFn (.vStr "s")
      [] [] "K" false).2.1 (by intro x hx; simp [mFix] at hx),
   (C7_transformer_application mFix isStrFn toZeroFn (.vStr "s")
      [] [] "K" false).2.2 (.vStr "s") "override" mFix rfl⟩

/-- C8: a `get` on a key containing `*` (no override, no cache entry)
raises the fatal `RGError` unconditionally (first conjunct), while the
`Wildcard` incident at its default `MESSAGE` severity never raises
(second conjunct), so constructing a manager whose category contains `*`
succeeds — eager load included, provided every discovered file has a
parser (third conjunct). -/
theorem C8_wildcard_get_vs_category (pk : List String)
    (files : List SourceFile) (m : Manager) (key : String) (r : Bool)
    (s_cat : String) (sevNoExt : Severity) :
    (strContainsChar key (Char.ofNat 42) = true →
     lookupD m.d_overrides key = none →
     lookupD m.d_data key = none →
     getResource pk files m key r
       = .error (.rgError "No wildcard search allowed yet!"))
    ∧ (∀ s, incidentCall "Wildcard" .msg s = .ok ())
    ∧ (strContainsChar s_cat (Char.ofNat 42) = true →
       (∀ f ∈ files, hasParser pk (extOf f.path) = true) →
       ∃ d, initManager s_cat .msg pk files true sevNoExt
         = .ok ⟨d, [], []⟩) := by
  refine ⟨?_, fun s => rfl, ?_⟩
  · intro hwc hov hca
    unfold getResource
    rw [hov, hca]
    cases r <;> simp only [hwc, if_true]
  · intro _ hall
    obtain ⟨d, hd⟩ := initLoadGo_all_ok pk sevNoExt files.reverse []
      (fun f hf => hall f (List.mem_reverse.mp hf))
    have hwild : (if strContainsChar s_cat (Char.ofNat 42) = true then
        incidentCall "Wildcard" .msg "Using * in category can cause problems"
        else Except.ok ()) = .ok () := by
      split <;> rfl
    refine ⟨d, ?_⟩
    unfold initManager initLoad
    rw [hwild, hd]
    rfl

/-- C8 witness: the key `a.*` on an empty manager, and the category
`CONF*` constructed over one parseable file. -/
theorem C8_wildcard_get_vs_category_witness :
    getResource ["json"] [fileGood] emptyManager "a.*" true
      = .error (.rgError "No wildcard search allowed yet!")
    ∧ incidentCall "Wildcard" .msg "w" = .ok ()
    ∧ ∃ d, initManager "CONF*" .msg ["json"] [fileGood] true .err
        = .ok ⟨d, [], []⟩ :=
  ⟨(C8_wildcard_get_vs_category ["json"] [fileGood] emptyManager "a.*" true
      "CONF*" .err).1 rfl rfl rfl,
   (C8_wildcard_get_vs_category ["json"] [fileGood] emptyManager "a.*" true
      "CONF*" .err).2.1 "w",
   (C8_wildcard_get_vs_category ["json"] [fileGood] emptyManager "a.*" true
      "CONF*" .err).2.2 rfl (by decide)⟩

/-- C10: `get` always factors as transformer selection plus fresh
wrapping applied AFTER retrieval to the raw value `_get_resource`
returned (first conjunct: the equation holds for every call, cache and
override hits included); `_get_resource` itself only ever stores the raw
resolved `(value, source)` pair in the cache, leaving overrides and
transformers untouched (second conjunct); and `override()` stores the raw
value with the literal label (third and fourth conjuncts). -/
theorem C10_raw_values_cached_rewrapped (pk : List String)
    (files : List SourceFile) (m : Manager) (key : String) (r : Bool)
    (v : Value) :
    get pk files m key r
      = (getResource pk files m key r).map
          (fun pr => (⟨applyTransformers m.transformers pr.1.1⟩, pr.2))
    ∧ (∀ (pr : Value × String) (m2 : Manager),
        getResource pk files m key r = .ok (pr, m2) →
        m2.d_overrides = m.d_overrides ∧ m2.transformers = m.transformers ∧
        (m2.d_data = m.d_data ∨ m2.d_data = dictInsert m.d_data key pr))
    ∧ (setOverride m key v).d_overrides
        = dictInsert m.d_overrides key (v, "override")
    ∧ lookupD (setOverride m key v).d_overrides key
        = some (v, "override") := by
  refine ⟨?_, fun pr m2 h => getResource_state pk files m key r pr m2 h, rfl,
    lookupD_dictInsert_self _ _ _⟩
  cases hg : getResource pk files m key r with
  | error e =>
    unfold get
    rw [hg]
    rfl
  | ok prm =>
    obtain ⟨⟨val, src⟩, m2⟩ := prm
    have hst := getResource_state pk files m key r (val, src) m2 hg
    unfold get
    rw [hg, ← hst.2.1]
    rfl

/-- C10 witness: an override hit on `mFix` — the returned value is the
stored raw value, re-wrapped, and the state is unchanged. -/
theorem C10_raw_values_cached_rewrapped_witness :
    get [] [] mFix "K" false
      = (getResource [] [] mFix "K" false).map
          (fun pr => (⟨applyTransformers mFix.transformers pr.1.1⟩, pr.2))
    ∧ (mFix.d_overrides = mFix.d_overrides
        ∧ mFix.transformers = mFix.transformers
        ∧ (mFix.d_data = mFix.d_data
            ∨ mFix.d_data = dictInsert mFix.d_data "K" (.vStr "s", "override")))
    ∧ (setOverride mFix "K" (.vInt 0)).d_overrides
        = dictInsert mFix.d_overrides "K" (.vInt 0, "override")
    ∧ lookupD (setOverride mFix "K" (.vInt 0)).d_overrides "K"
        = some (.vInt 0, "override") :=
  ⟨(C10_raw_values_cached_rewrapped [] [] mFix "K" false (.vInt 0)).1,
   (C10_raw_values_cached_rewrapped [] [] mFix "K" false (.vInt 0)).2.1
     (.vStr "s", "override") mFix rfl,
   (C10_raw_values_cached_rewrapped [] [] mFix "K" false (.vInt 0)).2.2.1,
   (C10_raw_values_cached_rewrapped [] [] mFix "K" false (.vInt 0)).2.2.2⟩

end RG
